import Mathlib

/-!
Shallow embedding of the BreakLoop social-coordination core
(src/utils/invites.js, src/utils/friendRequests.js, src/utils/eventUpdates.js).

Modelling conventions:
* each persisted collection is passed in and returned explicitly
  (the JS reads it from localStorage, mutates, and writes it back);
* the clock (`Date.now()`) and the random id/token generators are external
  collaborators, so operations that use them take a `now : Nat` and/or a
  fresh-id `String` argument;
* JS strings become Lean `String`s, timestamps become `Nat` (or `Int` where a
  difference may be negative), statuses stay the literal strings of the source.
-/

namespace BreakLoop

/-- Invite record, from the `@typedef Invite` of invites.js. -/
structure Invite where
  id : String
  token : String
  fromUserId : String
  fromUserName : String
  createdAt : Nat
  status : String
  usedByUserId : Option String := none
  usedAt : Option Nat := none
deriving DecidableEq

/-- `findInviteByToken(token)`: linear lookup by token equality
(`invites.find((inv) => inv.token === token) || null`). -/
def findInviteByToken (invites : List Invite) (token : String) : Option Invite :=
  invites.find? (fun inv => inv.token == token)

/-- `markInviteAsUsed(token, usedByUserId)`: maps over the collection and
re-stamps every invite whose token matches with status `'used'`,
the given `usedByUserId` and `usedAt = Date.now()`; other invites unchanged. -/
def markInviteAsUsed (invites : List Invite) (token : String)
    (usedByUserId : String) (now : Nat) : List Invite :=
  invites.map (fun inv =>
    if inv.token == token then
      { inv with status := "used", usedByUserId := some usedByUserId, usedAt := some now }
    else inv)

/-- Result shape of `validateInvite`:
`{ valid: boolean, invite?: Invite, reason?: string }`. -/
structure ValidateResult where
  valid : Bool
  invite : Option Invite := none
  reason : Option String := none
deriving DecidableEq

/-- `validateInvite(token)`: checks, in order, missing token, no matching
invite, status `'used'`, status `'expired'`; reads the store and never writes
it back (in this embedding it returns only the result, no store). A missing
token (`!token`) is modelled as the empty string. -/
def validateInvite (invites : List Invite) (token : String) : ValidateResult :=
  if token == "" then
    { valid := false, reason := some "No invite token provided" }
  else
    match findInviteByToken invites token with
    | none => { valid := false, reason := some "Invite not found" }
    | some invite =>
      if invite.status == "used" then
        { valid := false, reason := some "This invite is no longer valid" }
      else if invite.status == "expired" then
        { valid := false, reason := some "This invite has expired" }
      else
        { valid := true, invite := some invite }

/-- FriendRequest record, from the `@typedef FriendRequest` of friendRequests.js. -/
structure FriendRequest where
  id : String
  fromUserId : String
  fromUserName : String
  toUserId : String
  toUserName : String
  status : String
  createdAt : Nat
deriving DecidableEq

/-- `createFriendRequest(fromUserId, fromUserName, toUserId, toUserName)`:
builds a `pending` record with a fresh id and the current time, appends it to
the collection, and returns it (result, updated collection). -/
def createFriendRequest (requests : List FriendRequest)
    (fromUserId fromUserName toUserId toUserName : String)
    (freshId : String) (now : Nat) : FriendRequest × List FriendRequest :=
  let request : FriendRequest :=
    { id := freshId, fromUserId, fromUserName, toUserId, toUserName,
      status := "pending", createdAt := now }
  (request, requests ++ [request])

/-- `findExistingRequest(userId1, userId2)`: first `pending` record whose
(from, to) pair is (userId1, userId2) or (userId2, userId1). -/
def findExistingRequest (requests : List FriendRequest)
    (userId1 userId2 : String) : Option FriendRequest :=
  requests.find? (fun req =>
    req.status == "pending" &&
      ((req.fromUserId == userId1 && req.toUserId == userId2) ||
       (req.fromUserId == userId2 && req.toUserId == userId1)))

/-- EventUpdate record, from the `createEventUpdate` shape of eventUpdates.js. -/
structure EventUpdate where
  id : String
  type : String
  eventId : String
  actorId : Option String := none
  actorName : Option String := none
  message : Option String := none
  createdAt : Nat
  resolved : Bool
deriving DecidableEq

/-- `createEventUpdate({type, eventId, actorId, actorName, message})`:
stamps a fresh id, `createdAt = Date.now()`, `resolved = false`. -/
def createEventUpdate (ty eventId : String)
    (actorId actorName message : Option String)
    (freshId : String) (now : Nat) : EventUpdate :=
  { id := freshId, type := ty, eventId, actorId, actorName, message,
    createdAt := now, resolved := false }

/-- `addEventUpdate(update)`: appends to the log and returns the full log. -/
def addEventUpdate (updates : List EventUpdate) (update : EventUpdate) :
    List EventUpdate :=
  updates ++ [update]

/-- `resolveUpdate(updateId)`: maps over the log setting `resolved: true`
on the record whose id matches, leaving every other record unchanged. -/
def resolveUpdate (updates : List EventUpdate) (updateId : String) :
    List EventUpdate :=
  updates.map (fun u => if u.id == updateId then { u with resolved := true } else u)

/-- `resolveUpdatesByEvent(eventId)`: bulk variant of `resolveUpdate`,
matching on `eventId`. -/
def resolveUpdatesByEvent (updates : List EventUpdate) (eventId : String) :
    List EventUpdate :=
  updates.map (fun u => if u.eventId == eventId then { u with resolved := true } else u)

/-- `resolveUpdatesByEventAndType(eventId, type)`: bulk variant of
`resolveUpdate`, matching on `eventId` and `type` together. -/
def resolveUpdatesByEventAndType (updates : List EventUpdate) (eventId ty : String) :
    List EventUpdate :=
  updates.map (fun u =>
    if u.eventId == eventId && u.type == ty then { u with resolved := true } else u)

/-- Stable insertion into a createdAt-descending list: the new element goes
before the first element whose `createdAt` is not greater than its own. -/
def insertByCreatedAtDesc (u : EventUpdate) : List EventUpdate → List EventUpdate
  | [] => [u]
  | v :: vs =>
    if v.createdAt ≤ u.createdAt then u :: v :: vs
    else v :: insertByCreatedAtDesc u vs

/-- Stable sort by `createdAt` descending. JS `Array.prototype.sort` is
required to be stable, so `.sort((a, b) => b.createdAt - a.createdAt)` is
observationally this stable insertion sort: elements with equal `createdAt`
keep their relative order. -/
def sortByCreatedAtDesc : List EventUpdate → List EventUpdate
  | [] => []
  | u :: us => insertByCreatedAtDesc u (sortByCreatedAtDesc us)

/-- `getUnresolvedUpdates()`: filters `!update.resolved`, then sorts by
`createdAt` descending (`.sort((a, b) => b.createdAt - a.createdAt)`). -/
def getUnresolvedUpdates (updates : List EventUpdate) : List EventUpdate :=
  sortByCreatedAtDesc (updates.filter (fun u => !u.resolved))

/-- `chatPreview`, the inline preview computation of `emitEventChatUpdate`:
`messageText.length > 50 ? messageText.substring(0, 50) + '...' : messageText`. -/
def chatPreview (messageText : String) : String :=
  if messageText.length > 50 then messageText.take 50 ++ "..." else messageText

/-- `emitEventChatUpdate(eventId, senderId, senderName, messageText)`:
appends an `event_chat` update whose `message` is the 50-character preview. -/
def emitEventChatUpdate (updates : List EventUpdate)
    (eventId senderId senderName messageText : String)
    (freshId : String) (now : Nat) : List EventUpdate :=
  addEventUpdate updates
    (createEventUpdate "event_chat" eventId (some senderId) (some senderName)
      (some (chatPreview messageText)) freshId now)

/-- PrivateMessage record, from the message shape of `addMessageToConversation`. -/
structure PrivateMessage where
  id : String
  conversationId : String
  senderId : String
  senderName : String
  text : String
  createdAt : Nat
deriving DecidableEq

/-- Conversation record, from the shape built by `getOrCreateConversation`. -/
structure Conversation where
  id : String
  participantIds : List String
  messages : List PrivateMessage
  createdAt : Nat
  lastMessageAt : Option Nat
  lastReadAt : Option Nat := none
deriving DecidableEq

/-- The two-element sort `[userId1, userId2].sort()` (JS default comparator:
lexicographic string order). -/
def sortPair (a b : String) : String × String :=
  if a ≤ b then (a, b) else (b, a)

/-- `getConversationId(userId1, userId2)`: sorts the two ids and concatenates
them into the key `conv_{first}_{second}`. -/
def getConversationId (userId1 userId2 : String) : String :=
  let sorted := sortPair userId1 userId2
  "conv_" ++ sorted.1 ++ "_" ++ sorted.2

/-- The conversations store: a map `conversationId → Conversation`,
modelled as an association list. -/
def ConversationStore := List (String × Conversation)

/-- Map lookup `conversations[conversationId]`. -/
def lookupConversation (conversations : ConversationStore) (conversationId : String) :
    Option Conversation :=
  (conversations.find? (fun p => p.1 == conversationId)).map (fun p => p.2)

/-- Input shape `{senderId, senderName, text}` of `addMessageToConversation`. -/
structure MessageInput where
  senderId : String
  senderName : String
  text : String
deriving DecidableEq

/-- `addMessageToConversation(conversationId, message)`: if the conversation
does not exist, logs a warning and returns `null` without writing the store;
otherwise appends a fresh message, updates `lastMessageAt`, persists, and
returns the updated conversation. Result is (returned value, stored map). -/
def addMessageToConversation (conversations : ConversationStore)
    (conversationId : String) (message : MessageInput)
    (freshId : String) (now : Nat) : Option Conversation × ConversationStore :=
  match lookupConversation conversations conversationId with
  | none => (none, conversations)
  | some conversation =>
    let newMessage : PrivateMessage :=
      { id := freshId, conversationId, senderId := message.senderId,
        senderName := message.senderName, text := message.text, createdAt := now }
    let updated : Conversation :=
      { conversation with
          messages := conversation.messages ++ [newMessage],
          lastMessageAt := some now }
    (some updated,
      conversations.map (fun p => if p.1 == conversationId then (p.1, updated) else p))

/-- `formatRelativeTime(timestamp)`: floor-divides the elapsed milliseconds
into minute/hour/day buckets. `Math.floor` of a real quotient with positive
divisor is `Int.fdiv`. The `toLocaleDateString` fallback for old items is an
external collaborator, passed in as `localeDate`. -/
def formatRelativeTime (localeDate : Int → String) (now timestamp : Int) : String :=
  let diffMs : Int := now - timestamp
  let diffMins : Int := Int.fdiv diffMs 60000
  let diffHours : Int := Int.fdiv diffMs 3600000
  let diffDays : Int := Int.fdiv diffMs 86400000
  if diffMins < 1 then "Just now"
  else if diffMins < 60 then toString diffMins ++ "m ago"
  else if diffHours < 24 then toString diffHours ++ "h ago"
  else if diffDays < 7 then toString diffDays ++ "d ago"
  else localeDate timestamp

/-! Concrete records used by counterexamples and witnesses. -/

/-- A concrete active invite with token `"t"`. -/
def inviteT : Invite :=
  { id := "i1", token := "t", fromUserId := "a", fromUserName := "A",
    createdAt := 0, status := "active" }

/-- A concrete unresolved update, appended first, `createdAt = 5`. -/
def upA : EventUpdate :=
  { id := "a", type := "event_chat", eventId := "e", createdAt := 5, resolved := false }

/-- A concrete unresolved update, appended second, also `createdAt = 5`. -/
def upB : EventUpdate :=
  { id := "b", type := "event_chat", eventId := "e", createdAt := 5, resolved := false }

/-- A concrete already-resolved update. -/
def upR : EventUpdate :=
  { id := "r", type := "event_chat", eventId := "e", createdAt := 1, resolved := true }

/-! Claim C4 -/

/-- Claim C4: for every pair of user ids, `getConversationId` is invariant
under swapping the two participants, because the two ids are sorted before
being concatenated into the key. -/
theorem getConversationId_comm (a b : String) :
    getConversationId a b = getConversationId b a := by
  unfold getConversationId sortPair
  rcases le_total a b with h | h
  · by_cases h' : b ≤ a
    · have hab : a = b := le_antisymm h h'
      subst hab
      rfl
    · rw [if_pos h, if_neg h']
  · by_cases h' : a ≤ b
    · have hab : a = b := le_antisymm h' h
      subst hab
      rfl
    · rw [if_neg h', if_pos h]

/-! Claim C1 -/

/-- Claim C1, counterexample: marking token `"t"` used by `"u1"` at time 100
and then again by `"u2"` at time 200 leaves `usedByUserId = "u2"` and
`usedAt = 200`, not the first-set values `"u1"` and `100`: the second call is
not idempotent with respect to these fields. -/
theorem markInviteAsUsed_second_call_cex :
    (findInviteByToken (markInviteAsUsed [inviteT] "t" "u1" 100) "t").map
        (fun i => (i.usedByUserId, i.usedAt)) = some (some "u1", some 100)
    ∧ (findInviteByToken
          (markInviteAsUsed (markInviteAsUsed [inviteT] "t" "u1" 100) "t" "u2" 200) "t").map
        (fun i => (i.usedByUserId, i.usedAt)) = some (some "u2", some 200)
    ∧ (some (some "u2", some 200) : Option (Option String × Option Nat))
        ≠ some (some "u1", some 100) := by
  decide

/-- Claim C1 (amended): a second `markInviteAsUsed(t, u2)` at time `t2`
re-stamps the matching invite, overwriting `usedByUserId` with `u2` and
`usedAt` with `t2` — the result is the same store a single call with the
second arguments would have produced (the source has no already-used guard). -/
theorem markInviteAsUsed_overwrites (invites : List Invite) (token u1 u2 : String)
    (t1 t2 : Nat) :
    markInviteAsUsed (markInviteAsUsed invites token u1 t1) token u2 t2
      = markInviteAsUsed invites token u2 t2 := by
  unfold markInviteAsUsed
  rw [List.map_map]
  refine List.map_congr_left (fun inv _ => ?_)
  by_cases h : inv.token = token
  · simp [h]
  · simp [h]

/-! Claim C7 -/

/-- Claim C7: `addMessageToConversation` on a conversation id absent from the
store returns the no-op signal `null` and leaves the persisted conversations
collection entirely unchanged (no new entry is created). -/
theorem addMessageToConversation_missing (conversations : ConversationStore)
    (conversationId : String) (message : MessageInput) (freshId : String) (now : Nat)
    (h : lookupConversation conversations conversationId = none) :
    addMessageToConversation conversations conversationId message freshId now
      = (none, conversations) := by
  unfold addMessageToConversation
  rw [h]

/-- Claim C7, witness: sending to conversation `"c"` on the empty store
returns `none` and the store stays empty. -/
theorem addMessageToConversation_missing_witness :
    lookupConversation ([] : ConversationStore) "c" = none
    ∧ addMessageToConversation ([] : ConversationStore) "c"
        ⟨"s", "S", "hi"⟩ "m1" 7 = (none, ([] : ConversationStore)) :=
  ⟨rfl, addMessageToConversation_missing [] "c" ⟨"s", "S", "hi"⟩ "m1" 7 rfl⟩

/-! Claim C8 -/

/-- Claim C8: the update appended by `emitEventChatUpdate` stores the message
text unchanged when its length is at most 50 characters, and otherwise stores
exactly the first 50 characters followed by the ellipsis marker `"..."`. -/
theorem emitEventChatUpdate_preview (updates : List EventUpdate)
    (eventId senderId senderName messageText freshId : String) (now : Nat) :
    ∃ upd : EventUpdate,
      emitEventChatUpdate updates eventId senderId senderName messageText freshId now
        = updates ++ [upd]
      ∧ upd.message = some (if messageText.length ≤ 50 then messageText
          else messageText.take 50 ++ "...") := by
  refine ⟨_, rfl, ?_⟩
  show some (chatPreview messageText) = _
  unfold chatPreview
  by_cases h : messageText.length ≤ 50
  · rw [if_neg (by omega), if_pos h]
  · rw [if_pos (by omega), if_neg h]

/-! Claim C10 -/

/-- Claim C10: for every timestamp strictly in the future of `now`, the
elapsed difference is negative, its floored minute count is below 1, and
`formatRelativeTime` returns `"Just now"`. -/
theorem formatRelativeTime_future (localeDate : Int → String) (now timestamp : Int)
    (h : now < timestamp) :
    formatRelativeTime localeDate now timestamp = "Just now" := by
  have h1 : Int.fdiv (now - timestamp) 60000 = (now - timestamp) / 60000 :=
    Int.fdiv_eq_ediv _ (by decide)
  have h2 : Int.fdiv (now - timestamp) 60000 < 1 := by
    rw [h1]
    omega
  simp [formatRelativeTime, h2]

/-- Claim C10, witness: `now = 100`, `timestamp = 200`. -/
theorem formatRelativeTime_future_witness :
    (100 : Int) < 200
    ∧ formatRelativeTime (fun _ => "") 100 200 = "Just now" :=
  ⟨by decide, formatRelativeTime_future (fun _ => "") 100 200 (by decide)⟩

/-! Claim C2 -/

/-- Marking a token used rewrites exactly the found invite: lookup after
`markInviteAsUsed` returns the originally found invite re-stamped. -/
theorem findInviteByToken_markInviteAsUsed (invites : List Invite) (token u : String)
    (t : Nat) :
    findInviteByToken (markInviteAsUsed invites token u t) token
      = (findInviteByToken invites token).map (fun inv =>
          { inv with status := "used", usedByUserId := some u, usedAt := some t }) := by
  unfold findInviteByToken markInviteAsUsed
  rw [List.find?_map]
  have hp : ((fun inv : Invite => inv.token == token) ∘ (fun inv : Invite =>
      if inv.token == token then
        { inv with status := "used", usedByUserId := some u, usedAt := some t }
      else inv)) = fun inv : Invite => inv.token == token := by
    funext inv
    by_cases h : inv.token = token
    · simp [h]
    · simp [h]
  rw [hp]
  cases hfind : invites.find? (fun inv : Invite => inv.token == token) with
  | none => rfl
  | some inv =>
    have hpi := List.find?_some hfind
    have heq : inv.token = token := by simpa using hpi
    simp [heq]

/-- Claim C2: `validateInvite` fails with a reason determined by checking, in
order, missing token, no matching invite, status used, status expired (the
reason strings are the source's literals for those four branches); after
`markInviteAsUsed` on an existing token it returns the already-used failure;
in this embedding it takes the store and returns only a result, mirroring
that the source never writes the collection back. -/
theorem validateInvite_spec (invites : List Invite) (token u : String) (t : Nat) :
    validateInvite invites ""
        = { valid := false, reason := some "No invite token provided" }
    ∧ (token ≠ "" → findInviteByToken invites token = none →
        validateInvite invites token
          = { valid := false, reason := some "Invite not found" })
    ∧ (∀ inv, token ≠ "" → findInviteByToken invites token = some inv →
        inv.status = "used" →
        validateInvite invites token
          = { valid := false, reason := some "This invite is no longer valid" })
    ∧ (∀ inv, token ≠ "" → findInviteByToken invites token = some inv →
        inv.status = "expired" →
        validateInvite invites token
          = { valid := false, reason := some "This invite has expired" })
    ∧ (∀ inv, token ≠ "" → findInviteByToken invites token = some inv →
        inv.status ≠ "used" → inv.status ≠ "expired" →
        validateInvite invites token = { valid := true, invite := some inv })
    ∧ (token ≠ "" → (∃ inv, findInviteByToken invites token = some inv) →
        validateInvite (markInviteAsUsed invites token u t) token
          = { valid := false, reason := some "This invite is no longer valid" }) := by
  refine ⟨?_, ?_, ?_, ?_, ?_, ?_⟩
  · simp [validateInvite]
  · intro h hfind
    simp [validateInvite, h, hfind]
  · intro inv h hfind hs
    simp [validateInvite, h, hfind, hs]
  · intro inv h hfind hs
    simp [validateInvite, h, hfind, hs]
  · intro inv h hfind hs1 hs2
    simp [validateInvite, h, hfind, hs1, hs2]
  · rintro h ⟨inv, hinv⟩
    have hfind := findInviteByToken_markInviteAsUsed invites token u t
    rw [hinv] at hfind
    simp [validateInvite, h, hfind]

/-- Claim C2, witness: on the store holding the active invite with token
`"t"`, marking it used and validating again yields the already-used failure. -/
theorem validateInvite_spec_witness :
    ("t" : String) ≠ ""
    ∧ findInviteByToken [inviteT] "t" = some inviteT
    ∧ validateInvite (markInviteAsUsed [inviteT] "t" "u1" 100) "t"
        = { valid := false, reason := some "This invite is no longer valid" } :=
  ⟨by decide, by decide,
    (validateInvite_spec [inviteT] "t" "u1" 100).2.2.2.2.2 (by decide)
      ⟨inviteT, by decide⟩⟩

/-! Claim C6 -/

/-- Claim C6: `resolveUpdate` is idempotent — a second call with the same id
returns the collection of the first call unchanged — and a call whose id
matches no update, or only updates already resolved, is the identity. -/
theorem resolveUpdate_idem (updates : List EventUpdate) (i : String) :
    resolveUpdate (resolveUpdate updates i) i = resolveUpdate updates i
    ∧ ((∀ u ∈ updates, u.id = i → u.resolved = true) →
        resolveUpdate updates i = updates) := by
  constructor
  · unfold resolveUpdate
    rw [List.map_map]
    refine List.map_congr_left (fun u _ => ?_)
    by_cases h : u.id = i
    · simp [h]
    · simp [h]
  · intro hall
    unfold resolveUpdate
    have hid : ∀ u ∈ updates,
        (if u.id == i then { u with resolved := true } else u) = id u := by
      intro u hu
      by_cases h : u.id = i
      · have hres := hall u hu h
        cases u
        simp_all
      · simp [h]
    rw [List.map_congr_left hid, List.map_id]

/-- Claim C6, witness: resolving id `"zzz"` on a store whose only update with
that id constraint is vacuous (its sole record is already resolved, id `"r"`)
leaves the store unchanged, and resolving twice equals resolving once. -/
theorem resolveUpdate_idem_witness :
    (∀ u ∈ ([upR] : List EventUpdate), u.id = "zzz" → u.resolved = true)
    ∧ resolveUpdate [upR] "zzz" = [upR] :=
  ⟨by decide, (resolveUpdate_idem [upR] "zzz").2 (by decide)⟩

/-! Claim C9 -/

/-- Claim C9: after `createFriendRequest(u1, n1, u2, n2)` on a store with no
pending request between `u1` and `u2` in either direction,
`findExistingRequest(u2, u1)` — arguments in the opposite order — returns
exactly the record the creation appended. -/
theorem findExistingRequest_symm_after_create (requests : List FriendRequest)
    (u1 n1 u2 n2 freshId : String) (now : Nat)
    (h : findExistingRequest requests u1 u2 = none) :
    findExistingRequest (createFriendRequest requests u1 n1 u2 n2 freshId now).2 u2 u1
      = some (createFriendRequest requests u1 n1 u2 n2 freshId now).1 := by
  unfold findExistingRequest at h ⊢
  unfold createFriendRequest
  rw [List.find?_append]
  have hnone : requests.find? (fun req =>
      req.status == "pending" &&
        ((req.fromUserId == u2 && req.toUserId == u1) ||
         (req.fromUserId == u1 && req.toUserId == u2))) = none := by
    rw [List.find?_eq_none] at h ⊢
    intro req hreq
    have := h req hreq
    simp only [Bool.and_eq_true, Bool.or_eq_true] at this ⊢
    tauto
  rw [hnone]
  simp

/-- Claim C9, witness: creating the request from `"u1"` to `"u2"` on the
empty store and looking it up with swapped arguments returns that record. -/
theorem findExistingRequest_symm_witness :
    findExistingRequest [] "u1" "u2" = none
    ∧ findExistingRequest
        (createFriendRequest [] "u1" "Alice" "u2" "Bob" "f1" 5).2 "u2" "u1"
        = some (createFriendRequest [] "u1" "Alice" "u2" "Bob" "f1" 5).1 :=
  ⟨rfl, findExistingRequest_symm_after_create [] "u1" "Alice" "u2" "Bob" "f1" 5 rfl⟩

/-! Claim C3 -/

/-- Claim C3: `resolved` is monotonic and the log only grows. For every
position holding an update with `resolved = true`, each of the four
operations leaves an update with `resolved = true` at that same position
(`addEventUpdate` leaves it untouched), and no operation shortens the log. -/
theorem eventUpdate_resolved_monotonic (updates : List EventUpdate)
    (nu : EventUpdate) (i e ty : String) (j : Nat) (u : EventUpdate)
    (hj : updates[j]? = some u) (hres : u.resolved = true) :
    (addEventUpdate updates nu)[j]? = some u
    ∧ (∃ v, (resolveUpdate updates i)[j]? = some v ∧ v.resolved = true)
    ∧ (∃ v, (resolveUpdatesByEvent updates e)[j]? = some v ∧ v.resolved = true)
    ∧ (∃ v, (resolveUpdatesByEventAndType updates e ty)[j]? = some v
        ∧ v.resolved = true)
    ∧ (addEventUpdate updates nu).length = updates.length + 1
    ∧ (resolveUpdate updates i).length = updates.length
    ∧ (resolveUpdatesByEvent updates e).length = updates.length
    ∧ (resolveUpdatesByEventAndType updates e ty).length = updates.length := by
  have hlt : j < updates.length := (List.getElem?_eq_some_iff.mp hj).1
  have key : ∀ f : EventUpdate → EventUpdate,
      (∀ w, (f w).resolved = true ∨ f w = w) →
      ∃ v, (updates.map f)[j]? = some v ∧ v.resolved = true := by
    intro f hf
    refine ⟨f u, ?_, ?_⟩
    · rw [List.getElem?_map, hj]
      rfl
    · rcases hf u with h | h
      · exact h
      · rw [h]
        exact hres
  refine ⟨?_, ?_, ?_, ?_, ?_, ?_, ?_, ?_⟩
  · rw [addEventUpdate, List.getElem?_append_left hlt]
    exact hj
  · unfold resolveUpdate
    refine key _ (fun w => ?_)
    by_cases h : w.id = i
    · left
      simp [h]
    · right
      simp [h]
  · unfold resolveUpdatesByEvent
    refine key _ (fun w => ?_)
    by_cases h : w.eventId = e
    · left
      simp [h]
    · right
      simp [h]
  · unfold resolveUpdatesByEventAndType
    refine key _ (fun w => ?_)
    by_cases h : w.eventId = e ∧ w.type = ty
    · left
      simp [h.1, h.2]
    · right
      rw [if_neg]
      simp only [Bool.and_eq_true, beq_iff_eq]
      exact h
  · simp [addEventUpdate]
  · simp [resolveUpdate]
  · simp [resolveUpdatesByEvent]
  · simp [resolveUpdatesByEventAndType]

/-- Claim C3, witness: the singleton log holding the resolved update `upR`,
exercised at position 0 against all four operations. -/
theorem eventUpdate_resolved_monotonic_witness :
    ([upR] : List EventUpdate)[0]? = some upR
    ∧ upR.resolved = true
    ∧ ((addEventUpdate [upR] upA)[0]? = some upR
       ∧ (∃ v, (resolveUpdate [upR] "a")[0]? = some v ∧ v.resolved = true)
       ∧ (∃ v, (resolveUpdatesByEvent [upR] "e")[0]? = some v ∧ v.resolved = true)
       ∧ (∃ v, (resolveUpdatesByEventAndType [upR] "e" "event_chat")[0]? = some v
           ∧ v.resolved = true)
       ∧ (addEventUpdate [upR] upA).length = ([upR] : List EventUpdate).length + 1
       ∧ (resolveUpdate [upR] "a").length = ([upR] : List EventUpdate).length
       ∧ (resolveUpdatesByEvent [upR] "e").length = ([upR] : List EventUpdate).length
       ∧ (resolveUpdatesByEventAndType [upR] "e" "event_chat").length
           = ([upR] : List EventUpdate).length) :=
  ⟨rfl, rfl, eventUpdate_resolved_monotonic [upR] upA "a" "e" "event_chat" 0 upR rfl rfl⟩

/-! Claim C5 -/

/-- Membership is preserved by the stable insertion step. -/
theorem mem_insertByCreatedAtDesc {v u : EventUpdate} {l : List EventUpdate} :
    v ∈ insertByCreatedAtDesc u l ↔ v = u ∨ v ∈ l := by
  induction l with
  | nil => simp [insertByCreatedAtDesc]
  | cons w ws ih =>
    simp only [insertByCreatedAtDesc]
    split
    · simp
    · simp only [List.mem_cons, ih]
      tauto

/-- Inserting into a createdAt-descending list keeps it descending. -/
theorem pairwise_insertByCreatedAtDesc {u : EventUpdate} {l : List EventUpdate}
    (hl : l.Pairwise (fun a b => b.createdAt ≤ a.createdAt)) :
    (insertByCreatedAtDesc u l).Pairwise (fun a b => b.createdAt ≤ a.createdAt) := by
  induction l with
  | nil => simp [insertByCreatedAtDesc]
  | cons w ws ih =>
    rcases List.pairwise_cons.mp hl with ⟨hw, hws⟩
    simp only [insertByCreatedAtDesc]
    split
    · rename_i hle
      refine List.pairwise_cons.mpr ⟨?_, hl⟩
      intro x hx
      rcases List.mem_cons.mp hx with rfl | hx
      · exact hle
      · exact le_trans (hw x hx) hle
    · rename_i hgt
      push_neg at hgt
      refine List.pairwise_cons.mpr ⟨?_, ih hws⟩
      intro x hx
      rcases mem_insertByCreatedAtDesc.mp hx with rfl | hx
      · exact le_of_lt hgt
      · exact hw x hx

/-- The stable sort produces a createdAt-descending list. -/
theorem pairwise_sortByCreatedAtDesc (l : List EventUpdate) :
    (sortByCreatedAtDesc l).Pairwise (fun a b => b.createdAt ≤ a.createdAt) := by
  induction l with
  | nil => simp [sortByCreatedAtDesc]
  | cons u us ih =>
    simp only [sortByCreatedAtDesc]
    exact pairwise_insertByCreatedAtDesc ih

/-- Membership is preserved by the stable sort. -/
theorem mem_sortByCreatedAtDesc {v : EventUpdate} {l : List EventUpdate} :
    v ∈ sortByCreatedAtDesc l ↔ v ∈ l := by
  induction l with
  | nil => simp [sortByCreatedAtDesc]
  | cons u us ih =>
    simp only [sortByCreatedAtDesc, mem_insertByCreatedAtDesc, ih, List.mem_cons]

/-- Restricting to any single `createdAt` value, the stable insertion puts
the new element in front of nothing it ties with that it should follow: the
filtered slice gains the new element at its front exactly when it matches. -/
theorem filter_insertByCreatedAtDesc (t : Nat) (u : EventUpdate)
    (l : List EventUpdate) :
    (insertByCreatedAtDesc u l).filter (fun v => v.createdAt == t)
      = if u.createdAt = t
        then u :: l.filter (fun v => v.createdAt == t)
        else l.filter (fun v => v.createdAt == t) := by
  induction l with
  | nil =>
    by_cases hu : u.createdAt = t
    · simp [insertByCreatedAtDesc, hu]
    · simp [insertByCreatedAtDesc, hu]
  | cons w ws ih =>
    simp only [insertByCreatedAtDesc]
    split
    · rename_i hle
      by_cases hu : u.createdAt = t
      · simp [List.filter_cons, hu]
      · simp [List.filter_cons, hu]
    · rename_i hgt
      push_neg at hgt
      by_cases hu : u.createdAt = t
      · have hw : ¬ w.createdAt = t := by omega
        simp [List.filter_cons, hu, hw, ih]
      · by_cases hw : w.createdAt = t
        · simp [List.filter_cons, hu, hw, ih]
        · simp [List.filter_cons, hu, hw, ih]

/-- The stable sort leaves every single-`createdAt` slice of the list exactly
as it was: elements tying on `createdAt` keep their insertion order. -/
theorem filter_sortByCreatedAtDesc (t : Nat) (l : List EventUpdate) :
    (sortByCreatedAtDesc l).filter (fun v => v.createdAt == t)
      = l.filter (fun v => v.createdAt == t) := by
  induction l with
  | nil => rfl
  | cons u us ih =>
    simp only [sortByCreatedAtDesc, filter_insertByCreatedAtDesc, ih,
      List.filter_cons]
    by_cases hu : u.createdAt = t
    · simp [hu]
    · simp [hu]

/-- Claim C5, counterexample: two unresolved updates appended in the order
`upA`, `upB` with equal `createdAt` come back from `getUnresolvedUpdates` in
that same insertion order — the later-appended `upB` does not come first, so
the tie-break is not insertion order reversed. -/
theorem getUnresolvedUpdates_tiebreak_cex :
    upA.createdAt = upB.createdAt
    ∧ upA.resolved = false
    ∧ upB.resolved = false
    ∧ getUnresolvedUpdates [upA, upB] = [upA, upB]
    ∧ ([upA, upB] : List EventUpdate) ≠ [upB, upA] := by
  decide

/-- Claim C5 (amended): `getUnresolvedUpdates` returns exactly the updates
with `resolved = false`, sorted by `createdAt` descending, and for updates
with equal `createdAt` the tie-break is insertion order preserved (JS sort is
stable, so the earlier-appended update comes first). -/
theorem getUnresolvedUpdates_spec (updates : List EventUpdate) :
    (∀ u, u ∈ getUnresolvedUpdates updates ↔ u ∈ updates ∧ u.resolved = false)
    ∧ (getUnresolvedUpdates updates).Pairwise (fun a b => b.createdAt ≤ a.createdAt)
    ∧ ∀ t, (getUnresolvedUpdates updates).filter (fun u => u.createdAt == t)
        = updates.filter (fun u => !u.resolved && u.createdAt == t) := by
  refine ⟨?_, ?_, ?_⟩
  · intro u
    unfold getUnresolvedUpdates
    rw [mem_sortByCreatedAtDesc, List.mem_filter]
    simp
  · exact pairwise_sortByCreatedAtDesc _
  · intro t
    unfold getUnresolvedUpdates
    rw [filter_sortByCreatedAtDesc, List.filter_filter]
    congr 1
    funext u
    exact Bool.and_comm _ _

end BreakLoop
